import Mathlib

/-!
Shallow embedding of the attendance-system core (session registry,
matcher, aggregation, embedding store, student management) together with
theorems settling the specification claims against it.

Conventions of the embedding:
* Python dictionaries whose insertion order matters (attendance counters,
  the embedding store) are association lists `List (String × _)`;
  the per-class registry, whose iteration order no claim depends on, is a
  function `String → Option SessionSlot`.
* Timestamps (`datetime.now()`) are naturals (seconds) passed in
  explicitly by the caller.
* Similarity scores and percentages are rationals; the external
  `cosine_similarity` library call is a parameter `sim`.
* A Python exception escaping an operation is modelled by `Option`
  (`none` = the call raises).
-/

namespace Attendance

/-- One slot of the module-level `_sessions_by_class` dictionary in
`Run.py`: activity flag, session name, per-identity frame counters and
start time. -/
structure SessionSlot where
  is_active : Bool
  session_name : Option String
  attendance_records : List (String × Nat)
  start_time : Option Nat
deriving Repr, DecidableEq

/-- The registry state: `_sessions_by_class` as a partial map from
class id to slot (`none` = the key is absent from the dictionary). -/
def Registry : Type := String → Option SessionSlot

/-- The empty registry (fresh interpreter state, no sessions). -/
def emptyRegistry : Registry := fun _ => none

/-- Dictionary store `_sessions_by_class[class_id] = slot`. -/
def setSlot (st : Registry) (k : String) (v : SessionSlot) : Registry :=
  fun x => if x = k then some v else st x

/-- The canonical inactive empty slot written by `stop_session` and
`clear_session_data` in `Run.py`. -/
def inactiveSlot : SessionSlot :=
  { is_active := false, session_name := none, attendance_records := [], start_time := none }

/-- Python's `session_name or f"{class_id}_session"`: the default is taken
when the provided name is `None` or the empty (falsy) string. -/
def pyOr (s : Option String) (dflt : String) : String :=
  match s with
  | none => dflt
  | some v => if v = "" then dflt else v

/-- Outcome of `Run.start_session` (the JSON payload and HTTP code). -/
inductive StartOutcome where
  | missing_class_id
  | already_active
  | started (session_name : String) (start_time : Nat)
deriving Repr, DecidableEq

/-- `Run.start_session(class_id, session_name=None)`: reject an empty
class id, answer 409 `already_active` without touching the dictionary if
the slot is active, otherwise overwrite the slot with a fresh active
session started at `now`. -/
def start_session (st : Registry) (class_id : String) (session_name : Option String)
    (now : Nat) : StartOutcome × Registry :=
  if class_id = "" then (.missing_class_id, st)
  else
    match st class_id with
    | some sess =>
      if sess.is_active then (.already_active, st)
      else
        let name := pyOr session_name (class_id ++ "_session")
        (.started name now,
         setSlot st class_id
           { is_active := true, session_name := some name,
             attendance_records := [], start_time := some now })
    | none =>
      let name := pyOr session_name (class_id ++ "_session")
      (.started name now,
       setSlot st class_id
         { is_active := true, session_name := some name,
           attendance_records := [], start_time := some now })

/-- The summary JSON built by `Run.stop_session` from the live slot. -/
structure SessionSummary where
  session_name : Option String
  class_id : String
  attendance_records : List (String × Nat)
  start_time : Option Nat
  end_time : Nat
  duration_seconds : Nat
deriving Repr, DecidableEq

/-- Outcome of `Run.stop_session`. -/
inductive StopOutcome where
  | missing_class_id
  | not_active
  | summary (s : SessionSummary)
deriving Repr, DecidableEq

/-- `int((end_time - start_time).total_seconds()) if start_time else 0`. -/
def durationOf (start_time : Option Nat) (now : Nat) : Nat :=
  match start_time with
  | some t => now - t
  | none => 0

/-- `Run.stop_session(class_id)`: 400 `inactive` if the slot is missing or
not active; otherwise build the summary from a copy of the live state,
reset the slot to the canonical inactive empty state, and return the
summary. -/
def stop_session (st : Registry) (class_id : String) (now : Nat) :
    StopOutcome × Registry :=
  if class_id = "" then (.missing_class_id, st)
  else
    match st class_id with
    | some sess =>
      if sess.is_active then
        (.summary
          { session_name := sess.session_name, class_id := class_id,
            attendance_records := sess.attendance_records,
            start_time := sess.start_time, end_time := now,
            duration_seconds := durationOf sess.start_time now },
         setSlot st class_id inactiveSlot)
      else (.not_active, st)
    | none => (.not_active, st)

/-- `records[name] = records.get(name, 0) + 1` on an insertion-ordered
dictionary: bump the counter in place if present, append it otherwise. -/
def updateCount (records : List (String × Nat)) (name : String) :
    List (String × Nat) :=
  match records with
  | [] => [(name, 1)]
  | (k, v) :: rest =>
    if k = name then (k, v + 1) :: rest else (k, v) :: updateCount rest name

/-- The recording loop of `record_recognition_results_for_class`:
`for name in recognized_names: if name != "Unknown": bump`. -/
def applyRecognized (records : List (String × Nat)) (names : List String) :
    List (String × Nat) :=
  names.foldl (fun r n => if n = "Unknown" then r else updateCount r n) records

/-- Outcome of `Run.record_recognition_results_for_class`. -/
inductive RecordOutcome where
  | missing_class_id
  | inactive
  | recorded (updated : List (String × Nat))
deriving Repr, DecidableEq

/-- `Run.record_recognition_results_for_class(recognized_names, class_id)`:
403 `inactive` unless the slot is active, else add one hit per
non-"Unknown" recognized name to the slot's counters. -/
def record_recognition_results_for_class (st : Registry) (names : List String)
    (class_id : String) : RecordOutcome × Registry :=
  if class_id = "" then (.missing_class_id, st)
  else
    match st class_id with
    | some sess =>
      if sess.is_active then
        let r := applyRecognized sess.attendance_records names
        (.recorded r, setSlot st class_id { sess with attendance_records := r })
      else (.inactive, st)
    | none => (.inactive, st)

/-- `Run.clear_session_data(class_id=None)`: with a truthy class id,
reset that slot to the canonical inactive empty state; with `None` or the
falsy empty string, wipe the whole dictionary. -/
def clear_session_data (st : Registry) (class_id : Option String) : Registry :=
  match class_id with
  | some k => if k = "" then emptyRegistry else setSlot st k inactiveSlot
  | none => emptyRegistry

/-- Outcome of the Flask route `app.start_session`. -/
inductive HttpStartOutcome where
  | missing_class_id
  | firebase_unavailable
  | registry (o : StartOutcome)
deriving Repr, DecidableEq

/-- The `/start_session` route in `app.py`: validate `classId` and the
Firebase handle, then `clear_session_data(class_id)` followed by
`start_session(class_id)` (no session name is passed). -/
def http_start_session (st : Registry) (classId : Option String)
    (firebase_ok : Bool) (now : Nat) : HttpStartOutcome × Registry :=
  match classId with
  | none => (.missing_class_id, st)
  | some k =>
    if k = "" then (.missing_class_id, st)
    else if firebase_ok = false then (.firebase_unavailable, st)
    else
      let st1 := clear_session_data st (some k)
      let r := start_session st1 k none now
      (.registry r.1, r.2)

/-- Counter read-out `records.get(name, 0)`. -/
def countOf (records : List (String × Nat)) (name : String) : Nat :=
  (records.lookup name).getD 0

/-- Concrete registry after `start_session("CS101")` at time 0. -/
def regStarted : Registry := (start_session emptyRegistry "CS101" none 0).2

/-- The slot `regStarted` holds for "CS101". -/
def slotStarted : SessionSlot :=
  { is_active := true, session_name := some "CS101_session",
    attendance_records := [], start_time := some 0 }

/-- `regStarted` after recording one "alice" hit. -/
def regRecorded : Registry :=
  (record_recognition_results_for_class regStarted ["alice"] "CS101").2

theorem countOf_nil (n : String) : countOf [] n = 0 := rfl

theorem countOf_cons_self (k : String) (v : Nat) (l : List (String × Nat)) :
    countOf ((k, v) :: l) k = v := by
  simp [countOf, List.lookup]

theorem countOf_cons_ne {n k : String} (h : n ≠ k) (v : Nat)
    (l : List (String × Nat)) : countOf ((k, v) :: l) n = countOf l n := by
  have hb : (n == k) = false := by simp [h]
  simp [countOf, List.lookup, hb]

theorem countOf_updateCount (records : List (String × Nat)) (name n : String) :
    countOf (updateCount records name) n
      = countOf records n + (if n = name then 1 else 0) := by
  induction records with
  | nil =>
    by_cases h : n = name
    · subst h; simp [updateCount, countOf_cons_self, countOf_nil]
    · simp [updateCount, countOf_cons_ne h, countOf_nil, h]
  | cons hd tl ih =>
    obtain ⟨k, v⟩ := hd
    by_cases hk : k = name
    · subst hk
      by_cases hn : n = k
      · subst hn; simp [updateCount, countOf_cons_self]
      · simp [updateCount, countOf_cons_ne hn, hn]
    · by_cases hn : n = k
      · subst hn
        simp [updateCount, hk, countOf_cons_self]
      · simp [updateCount, hk, countOf_cons_ne hn, ih]

theorem countOf_applyRecognized (names : List String)
    (records : List (String × Nat)) (n : String) :
    countOf (applyRecognized records names) n
      = countOf records n + (if n = "Unknown" then 0 else names.count n) := by
  induction names generalizing records with
  | nil => simp [applyRecognized]
  | cons m ms ih =>
    have hfold : applyRecognized records (m :: ms)
        = applyRecognized (if m = "Unknown" then records else updateCount records m) ms := by
      simp [applyRecognized, List.foldl_cons]
    by_cases hm : m = "Unknown"
    · subst hm
      rw [hfold, if_pos rfl, ih]
      by_cases hn : n = "Unknown"
      · simp [hn]
      · simp [hn, List.count_cons]
    · rw [hfold, if_neg hm, ih, countOf_updateCount]
      by_cases hn : n = "Unknown"
      · have hnm : n ≠ m := fun h => hm (h.symm.trans hn)
        have hmn : ¬("Unknown" = m) := fun h => hm h.symm
        simp [hn, hnm, hmn]
      · by_cases hnm : n = m
        · subst hnm
          simp [hn, List.count_cons]
          omega
        · simp [hn, hnm, List.count_cons]

theorem applyRecognized_all_unknown (names : List String)
    (records : List (String × Nat)) (h : ∀ n ∈ names, n = "Unknown") :
    applyRecognized records names = records := by
  induction names generalizing records with
  | nil => rfl
  | cons m ms ih =>
    have hm : m = "Unknown" := h m (by simp)
    have : applyRecognized records (m :: ms)
        = applyRecognized records ms := by
      simp [applyRecognized, List.foldl_cons, hm]
    rw [this]
    exact ih records (fun n hn => h n (by simp [hn]))

/-- C1 (amended): on a key with an active session, the registry-level
`start_session` answers 409 `already_active` and returns the registry
untouched; the HTTP `/start_session` route, by contrast, clears the slot
before calling `start_session`, so it succeeds with a fresh default-named
session and resets the first session's counters and start time. -/
theorem start_conflict_registry_but_http_resets
    (st : Registry) (k : String) (sess : SessionSlot) (n : Option String)
    (now now' : Nat)
    (hk : k ≠ "") (hsess : st k = some sess) (hact : sess.is_active = true) :
    start_session st k n now = (.already_active, st) ∧
    (http_start_session st (some k) true now').1
      = .registry (.started (k ++ "_session") now') ∧
    (http_start_session st (some k) true now').2 k
      = some { is_active := true, session_name := some (k ++ "_session"),
               attendance_records := [], start_time := some now' } := by
  refine ⟨?_, ?_, ?_⟩
  · simp [start_session, hk, hsess, hact]
  · simp [http_start_session, hk, clear_session_data, start_session,
      setSlot, pyOr, inactiveSlot]
  · simp [http_start_session, hk, clear_session_data, start_session,
      setSlot, pyOr, inactiveSlot]

theorem start_conflict_registry_but_http_resets_witness :
    ("CS101" ≠ "") ∧ regStarted "CS101" = some slotStarted ∧
    slotStarted.is_active = true ∧
    (start_session regStarted "CS101" none 3 = (.already_active, regStarted) ∧
     (http_start_session regStarted (some "CS101") true 5).1
       = .registry (.started ("CS101" ++ "_session") 5) ∧
     (http_start_session regStarted (some "CS101") true 5).2 "CS101"
       = some { is_active := true, session_name := some ("CS101" ++ "_session"),
                attendance_records := [], start_time := some 5 }) :=
  ⟨by decide, rfl, rfl,
   start_conflict_registry_but_http_resets regStarted "CS101" slotStarted none 3 5
     (by decide) rfl rfl⟩

/-- C1 counterexample: starting "CS101", recording "alice" once, then
calling the HTTP start route again does not yield Conflict — it starts a
fresh session and wipes the recorded counter, refuting the claim for the
HTTP path. -/
theorem http_second_start_is_not_conflict :
    regRecorded "CS101"
      = some { is_active := true, session_name := some "CS101_session",
               attendance_records := [("alice", 1)], start_time := some 0 } ∧
    (http_start_session regRecorded (some "CS101") true 5).1
      = .registry (.started "CS101_session" 5) ∧
    (http_start_session regRecorded (some "CS101") true 5).1
      ≠ .registry .already_active ∧
    (http_start_session regRecorded (some "CS101") true 5).2 "CS101"
      = some { is_active := true, session_name := some "CS101_session",
               attendance_records := [], start_time := some 5 } :=
  ⟨rfl, rfl, by decide, rfl⟩

/-- C2 (amended): on an active session, `record` increments exactly the
counters of the names that are not the sentinel "Unknown" (capital U, as
the code spells it), once per occurrence; a batch consisting only of
"Unknown" leaves the counter map unchanged. -/
theorem record_filters_unknown_sentinel
    (st : Registry) (k : String) (sess : SessionSlot) (names : List String)
    (hk : k ≠ "") (hsess : st k = some sess) (hact : sess.is_active = true) :
    record_recognition_results_for_class st names k
      = (.recorded (applyRecognized sess.attendance_records names),
         setSlot st k
           { sess with attendance_records := applyRecognized sess.attendance_records names }) ∧
    (∀ n, countOf (applyRecognized sess.attendance_records names) n
        = countOf sess.attendance_records n
          + (if n = "Unknown" then 0 else names.count n)) ∧
    ((∀ n ∈ names, n = "Unknown") →
      applyRecognized sess.attendance_records names = sess.attendance_records) := by
  refine ⟨?_, fun n => countOf_applyRecognized names sess.attendance_records n,
    fun h => applyRecognized_all_unknown names sess.attendance_records h⟩
  simp [record_recognition_results_for_class, hk, hsess, hact]

theorem record_filters_unknown_sentinel_witness :
    ("CS101" ≠ "") ∧ regStarted "CS101" = some slotStarted ∧
    slotStarted.is_active = true ∧
    countOf (applyRecognized slotStarted.attendance_records
      ["alice", "Unknown", "alice"]) "alice"
      = countOf slotStarted.attendance_records "alice"
        + (if "alice" = "Unknown" then 0
           else (["alice", "Unknown", "alice"].count "alice")) :=
  ⟨by decide, rfl, rfl,
   (record_filters_unknown_sentinel regStarted "CS101" slotStarted
      ["alice", "Unknown", "alice"] (by decide) rfl rfl).2.1 "alice"⟩

/-- C4: `stop_session` answers `not_active` exactly when the key has no
slot or an inactive one; on an active slot it returns the summary built
from the live state (name, counters, start, end, truncated duration) and
resets the slot to the canonical inactive empty state. -/
theorem stop_session_not_active_iff
    (st : Registry) (k : String) (now : Nat) (hk : k ≠ "") :
    ((stop_session st k now).1 = .not_active
      ↔ ∀ sess, st k = some sess → sess.is_active = false) ∧
    (∀ sess, st k = some sess → sess.is_active = true →
      stop_session st k now
        = (.summary
            { session_name := sess.session_name, class_id := k,
              attendance_records := sess.attendance_records,
              start_time := sess.start_time, end_time := now,
              duration_seconds := durationOf sess.start_time now },
           setSlot st k inactiveSlot)) := by
  constructor
  · constructor
    · intro h sess hsess
      by_cases hact : sess.is_active = true
      · simp [stop_session, hk, hsess, hact] at h
      · simpa using hact
    · intro h
      cases hsess : st k with
      | none => simp [stop_session, hk, hsess]
      | some sess =>
        have hin : sess.is_active = false := h sess hsess
        simp [stop_session, hk, hsess, hin]
  · intro sess hsess hact
    simp [stop_session, hk, hsess, hact]

theorem stop_session_not_active_iff_witness :
    ("CS101" ≠ "") ∧
    (((stop_session regStarted "CS101" 7).1 = .not_active
        ↔ ∀ sess, regStarted "CS101" = some sess → sess.is_active = false) ∧
      (∀ sess, regStarted "CS101" = some sess → sess.is_active = true →
        stop_session regStarted "CS101" 7
          = (.summary
              { session_name := sess.session_name, class_id := "CS101",
                attendance_records := sess.attendance_records,
                start_time := sess.start_time, end_time := 7,
                duration_seconds := durationOf sess.start_time 7 },
             setSlot regStarted "CS101" inactiveSlot))) :=
  ⟨by decide, stop_session_not_active_iff regStarted "CS101" 7 (by decide)⟩

/-- Registry states reachable by any sequence of `start_session`,
`stop_session`, `record_recognition_results_for_class` and
`clear_session_data` calls from the fresh interpreter state. -/
inductive Reachable : Registry → Prop where
  | init : Reachable emptyRegistry
  | step_start (st : Registry) (k : String) (n : Option String) (now : Nat) :
      Reachable st → Reachable (start_session st k n now).2
  | step_stop (st : Registry) (k : String) (now : Nat) :
      Reachable st → Reachable (stop_session st k now).2
  | step_record (st : Registry) (names : List String) (k : String) :
      Reachable st → Reachable (record_recognition_results_for_class st names k).2
  | step_clear (st : Registry) (c : Option String) :
      Reachable st → Reachable (clear_session_data st c)

theorem start_session_snd (st : Registry) (k : String) (n : Option String)
    (now : Nat) :
    (start_session st k n now).2 = st ∨
    ∃ name, (start_session st k n now).2
      = setSlot st k { is_active := true, session_name := some name,
                       attendance_records := [], start_time := some now } := by
  unfold start_session
  by_cases hk : k = ""
  · simp [hk]
  · cases hsess : st k with
    | some sess =>
      by_cases hact : sess.is_active = true
      · simp [hk, hsess, hact]
      · have hin : sess.is_active = false := by simpa using hact
        right
        exact ⟨pyOr n (k ++ "_session"), by simp [hk, hsess, hin]⟩
    | none =>
      right
      exact ⟨pyOr n (k ++ "_session"), by simp [hk, hsess]⟩

theorem stop_session_snd (st : Registry) (k : String) (now : Nat) :
    (stop_session st k now).2 = st ∨
    (stop_session st k now).2 = setSlot st k inactiveSlot := by
  unfold stop_session
  by_cases hk : k = ""
  · simp [hk]
  · cases hsess : st k with
    | some sess =>
      by_cases hact : sess.is_active = true
      · simp [hk, hsess, hact]
      · have hin : sess.is_active = false := by simpa using hact
        simp [hk, hsess, hin]
    | none => simp [hk, hsess]

theorem record_snd (st : Registry) (names : List String) (k : String) :
    (record_recognition_results_for_class st names k).2 = st ∨
    ∃ v : SessionSlot, v.is_active = true ∧
      (record_recognition_results_for_class st names k).2 = setSlot st k v := by
  unfold record_recognition_results_for_class
  by_cases hk : k = ""
  · simp [hk]
  · cases hsess : st k with
    | some sess =>
      by_cases hact : sess.is_active = true
      · right
        exact ⟨{ sess with attendance_records := applyRecognized sess.attendance_records names },
          by simpa using hact, by simp [hk, hsess, hact]⟩
      · have hin : sess.is_active = false := by simpa using hact
        simp [hk, hsess, hin]
    | none => simp [hk, hsess]

theorem clear_snd (st : Registry) (c : Option String) :
    clear_session_data st c = emptyRegistry ∨
    ∃ k, clear_session_data st c = setSlot st k inactiveSlot := by
  unfold clear_session_data
  cases c with
  | none => simp
  | some k =>
    by_cases hk : k = ""
    · simp [hk]
    · right
      exact ⟨k, by simp [hk]⟩

theorem inactive_empty_of_setSlot
    (st : Registry) (k : String) (v : SessionSlot)
    (hst : ∀ x sess, st x = some sess → sess.is_active = false →
      sess.attendance_records = [] ∧ sess.start_time = none)
    (hv : v.is_active = false → v.attendance_records = [] ∧ v.start_time = none) :
    ∀ x sess, setSlot st k v x = some sess → sess.is_active = false →
      sess.attendance_records = [] ∧ sess.start_time = none := by
  intro x sess hx hin
  by_cases hxk : x = k
  · simp only [setSlot, if_pos hxk] at hx
    cases hx
    exact hv hin
  · simp only [setSlot, if_neg hxk] at hx
    exact hst x sess hx hin

/-- C7: in every registry state reachable by any sequence of start, stop,
record and clear calls, an inactive slot has empty counters and a null
start time. -/
theorem registry_inactive_empty_invariant (st : Registry) (h : Reachable st) :
    ∀ k sess, st k = some sess → sess.is_active = false →
      sess.attendance_records = [] ∧ sess.start_time = none := by
  induction h with
  | init => intro k sess hx _; simp [emptyRegistry] at hx
  | step_start st k n now _ ih =>
    rcases start_session_snd st k n now with heq | ⟨name, heq⟩
    · rw [heq]; exact ih
    · rw [heq]
      exact inactive_empty_of_setSlot st k _ ih (by intro hfalse; simp at hfalse)
  | step_stop st k now _ ih =>
    rcases stop_session_snd st k now with heq | heq
    · rw [heq]; exact ih
    · rw [heq]
      exact inactive_empty_of_setSlot st k _ ih (by intro _; exact ⟨rfl, rfl⟩)
  | step_record st names k _ ih =>
    rcases record_snd st names k with heq | ⟨v, hv, heq⟩
    · rw [heq]; exact ih
    · rw [heq]
      exact inactive_empty_of_setSlot st k v ih
        (by intro hfalse; rw [hv] at hfalse; cases hfalse)
  | step_clear st c _ ih =>
    rcases clear_snd st c with heq | ⟨k, heq⟩
    · rw [heq]; intro x sess hx _; simp [emptyRegistry] at hx
    · rw [heq]
      exact inactive_empty_of_setSlot st k _ ih (by intro _; exact ⟨rfl, rfl⟩)

/-- Concrete reachable state: start, record "alice", stop. -/
def regStopped : Registry := (stop_session regRecorded "CS101" 9).2

theorem registry_inactive_empty_invariant_witness :
    regStopped "CS101" = some inactiveSlot ∧
    inactiveSlot.is_active = false ∧
    (inactiveSlot.attendance_records = [] ∧ inactiveSlot.start_time = none) :=
  ⟨rfl, rfl,
   registry_inactive_empty_invariant regStopped
     (Reachable.step_stop regRecorded "CS101" 9
       (Reachable.step_record regStarted ["alice"] "CS101"
         (Reachable.step_start emptyRegistry "CS101" none 0 Reachable.init)))
     "CS101" inactiveSlot rfl rfl⟩

/-- C2 counterexample: the code's sentinel is "Unknown", not "unknown" —
recording the lowercase identity "unknown" on a fresh active session
changes a counter from 0 to 1. -/
theorem recording_lowercase_unknown_changes_counters :
    (record_recognition_results_for_class regStarted ["unknown"] "CS101").1
      = .recorded [("unknown", 1)] ∧
    countOf slotStarted.attendance_records "unknown" = 0 ∧
    countOf [("unknown", 1)] "unknown" = 1 :=
  ⟨rfl, rfl, rfl⟩

/-! ## Matcher (`main.find_match`)

The external `sklearn` `cosine_similarity` call is a parameter `sim`;
scores are rationals. `SIMILARITY_THRESHOLD = 0.6`. -/

/-- An embedding vector (list of coordinates). -/
abbrev Vec := List ℚ

/-- `SIMILARITY_THRESHOLD = 0.6` in `main.py`, written as the reduced
fraction 3/5 in a kernel-reducible form. -/
def SIMILARITY_THRESHOLD : ℚ := ⟨3, 5, by decide, by decide⟩

theorem SIMILARITY_THRESHOLD_eq : SIMILARITY_THRESHOLD = 3 / 5 := by
  rw [SIMILARITY_THRESHOLD, Rat.mk'_eq_divInt, Rat.divInt_eq_div]
  norm_num

/-- The scan of `find_match`: start from `("Unknown", 0)` and replace the
best pair whenever a strictly greater similarity is seen, iterating over
identities in store order and their reference vectors in sequence order. -/
def findBest (sim : Vec → Vec → ℚ) (query : Vec)
    (db : List (String × List Vec)) : String × ℚ :=
  db.foldl
    (fun best pe =>
      pe.2.foldl
        (fun b e => if sim query e > b.2 then (pe.1, sim query e) else b) best)
    ("Unknown", 0)

/-- `main.find_match(face_embedding, embeddings_db)`: the best pair if its
score reaches the threshold, else `("Unknown", best_score)`. -/
def find_match (sim : Vec → Vec → ℚ) (query : Vec)
    (db : List (String × List Vec)) : String × ℚ :=
  let b := findBest sim query db
  if SIMILARITY_THRESHOLD ≤ b.2 then b else ("Unknown", b.2)

/-- The store flattened to (identity, reference vector) pairs in
iteration order. -/
def refPairs (db : List (String × List Vec)) : List (String × Vec) :=
  db.foldr (fun pe acc => (pe.2.map fun e => (pe.1, e)) ++ acc) []

/-- All (identity, similarity) pairs the scan visits, in visit order. -/
def simsOf (sim : Vec → Vec → ℚ) (query : Vec)
    (db : List (String × List Vec)) : List (String × ℚ) :=
  (refPairs db).map fun pv => (pv.1, sim query pv.2)

/-- The scan of `find_match`, abstracted over the visited score list. -/
def foldBest (l : List (String × ℚ)) (b : String × ℚ) : String × ℚ :=
  l.foldl (fun b ps => if ps.2 > b.2 then ps else b) b

theorem foldBest_cons (s : String × ℚ) (l : List (String × ℚ))
    (b : String × ℚ) :
    foldBest (s :: l) b = foldBest l (if s.2 > b.2 then s else b) := rfl

theorem foldBest_append (l1 l2 : List (String × ℚ)) (b : String × ℚ) :
    foldBest (l1 ++ l2) b = foldBest l2 (foldBest l1 b) := by
  simp [foldBest, List.foldl_append]

theorem simsOf_cons (sim : Vec → Vec → ℚ) (query : Vec)
    (pe : String × List Vec) (db : List (String × List Vec)) :
    simsOf sim query (pe :: db)
      = (pe.2.map fun e => (pe.1, sim query e)) ++ simsOf sim query db := by
  simp [simsOf, refPairs, List.map_map]

theorem foldBest_inner (sim : Vec → Vec → ℚ) (query : Vec) (p : String)
    (es : List Vec) (b : String × ℚ) :
    es.foldl (fun b e => if sim query e > b.2 then (p, sim query e) else b) b
      = foldBest (es.map fun e => (p, sim query e)) b := by
  induction es generalizing b with
  | nil => rfl
  | cons e rest ih => simp [foldBest_cons, List.foldl_cons, ih]

theorem findBest_eq_foldBest (sim : Vec → Vec → ℚ) (query : Vec)
    (db : List (String × List Vec)) :
    findBest sim query db = foldBest (simsOf sim query db) ("Unknown", 0) := by
  suffices h : ∀ (db : List (String × List Vec)) (b : String × ℚ),
      db.foldl
        (fun best pe =>
          pe.2.foldl
            (fun b e => if sim query e > b.2 then (pe.1, sim query e) else b) best)
        b
        = foldBest (simsOf sim query db) b by
    exact h db ("Unknown", 0)
  intro db
  induction db with
  | nil => intro b; rfl
  | cons pe rest ih =>
    intro b
    rw [List.foldl_cons, ih, foldBest_inner, simsOf_cons, foldBest_append]

theorem foldBest_no_improve (l : List (String × ℚ)) (b : String × ℚ)
    (h : ∀ x ∈ l, x.2 ≤ b.2) : foldBest l b = b := by
  induction l with
  | nil => rfl
  | cons s rest ih =>
    have hs : ¬s.2 > b.2 := not_lt.mpr (h s (by simp))
    rw [foldBest_cons, if_neg hs]
    exact ih fun x hx => h x (by simp [hx])

theorem foldBest_first_max (l : List (String × ℚ)) (M : ℚ) (pr : String × ℚ)
    (hub : ∀ s ∈ l, s.2 ≤ M) :
    ∀ b : String × ℚ, b.2 < M →
      l.find? (fun s => s.2 == M) = some pr → foldBest l b = pr := by
  induction l with
  | nil => intro b _ hfind; simp [List.find?] at hfind
  | cons s rest ih =>
    intro b hb hfind
    by_cases hs : s.2 = M
    · have hpr : pr = s := by
        rw [List.find?_cons_of_pos _ (by simp [hs])] at hfind
        exact (Option.some_inj.mp hfind).symm
      have hstep : foldBest (s :: rest) b = foldBest rest s := by
        rw [foldBest_cons, if_pos (hs ▸ hb)]
      rw [hstep, hpr]
      exact foldBest_no_improve rest s
        (fun x hx => le_trans (hub x (by simp [hx])) (le_of_eq hs.symm))
    · have hfind' : rest.find? (fun s => s.2 == M) = some pr := by
        rwa [List.find?_cons_of_neg _ (by simp [hs])] at hfind
      have hslt : s.2 < M := lt_of_le_of_ne (hub s (by simp)) hs
      rw [foldBest_cons]
      by_cases hcmp : s.2 > b.2
      · rw [if_pos hcmp]
        exact ih (fun x hx => hub x (by simp [hx])) s hslt hfind'
      · rw [if_neg hcmp]
        exact ih (fun x hx => hub x (by simp [hx])) b hb hfind'

theorem foldBest_snd_max (l : List (String × ℚ)) (M : ℚ)
    (hub : ∀ s ∈ l, s.2 ≤ M) (hmem : ∃ s ∈ l, s.2 = M) :
    ∀ b : String × ℚ, (foldBest l b).2 = max b.2 M := by
  induction l with
  | nil => simp at hmem
  | cons s rest ih =>
    intro b
    rcases hmem with ⟨x, hx, hxM⟩
    rcases List.mem_cons.mp hx with hxs | hxrest
    · have hsM : s.2 = M := hxs ▸ hxM
      rw [foldBest_cons]
      by_cases hcmp : s.2 > b.2
      · rw [if_pos hcmp,
          foldBest_no_improve rest s
            (fun y hy => le_trans (hub y (by simp [hy])) (le_of_eq hsM.symm)),
          hsM]
        exact (max_eq_right (le_of_lt (hsM ▸ hcmp))).symm
      · have hMb : M ≤ b.2 := hsM ▸ not_lt.mp hcmp
        rw [if_neg hcmp,
          foldBest_no_improve rest b
            (fun y hy => le_trans (hub y (by simp [hy])) hMb)]
        exact (max_eq_left hMb).symm
    · have hrest : ∃ y ∈ rest, y.2 = M := ⟨x, hxrest, hxM⟩
      have ihr := ih (fun y hy => hub y (by simp [hy])) hrest
      rw [foldBest_cons, ihr]
      by_cases hcmp : s.2 > b.2
      · have hsM : s.2 ≤ M := hub s (by simp)
        rw [if_pos hcmp, max_eq_right hsM,
          max_eq_right (le_of_lt (lt_of_lt_of_le hcmp hsM))]
      · rw [if_neg hcmp]

/-- C3: the threshold is inclusive — whenever `M` bounds every visited
similarity and the first pair attaining `M` is `pr`, with
`SIMILARITY_THRESHOLD ≤ M` (including equality), `find_match` returns
exactly that first-seen best pair. -/
theorem find_match_threshold_inclusive
    (sim : Vec → Vec → ℚ) (query : Vec) (db : List (String × List Vec))
    (M : ℚ) (pr : String × ℚ)
    (hub : ∀ s ∈ simsOf sim query db, s.2 ≤ M)
    (hfind : (simsOf sim query db).find? (fun s => s.2 == M) = some pr)
    (hT : SIMILARITY_THRESHOLD ≤ M) :
    find_match sim query db = pr ∧ pr.2 = M := by
  have hprM : pr.2 = M := by
    have := List.find?_some hfind
    simpa using this
  have h0 : ((("Unknown", 0) : String × ℚ)).2 < M := by
    have : (0 : ℚ) < SIMILARITY_THRESHOLD := by norm_num [SIMILARITY_THRESHOLD_eq]
    exact lt_of_lt_of_le this hT
  have hfb : findBest sim query db = pr := by
    rw [findBest_eq_foldBest]
    exact foldBest_first_max _ M pr hub _ h0 hfind
  refine ⟨?_, hprM⟩
  unfold find_match
  rw [hfb]
  simp [hprM, hT]

theorem find_match_threshold_inclusive_witness :
    (∀ s ∈ simsOf (fun _ _ => (1 : ℚ)) [1] [("alice", [[1]])], s.2 ≤ 1) ∧
    (simsOf (fun _ _ => (1 : ℚ)) [1] [("alice", [[1]])]).find?
      (fun s => s.2 == 1) = some ("alice", 1) ∧
    SIMILARITY_THRESHOLD ≤ 1 ∧
    (find_match (fun _ _ => (1 : ℚ)) [1] [("alice", [[1]])] = ("alice", 1) ∧
      (("alice", (1 : ℚ))).2 = 1) :=
  ⟨by decide, by decide, by norm_num [SIMILARITY_THRESHOLD_eq],
   find_match_threshold_inclusive (fun _ _ => (1 : ℚ)) [1] [("alice", [[1]])]
     1 ("alice", 1) (by decide) (by decide)
     (by norm_num [SIMILARITY_THRESHOLD_eq])⟩

/-- C5 (amended): on a non-empty store whose best similarity `M` lies
below the threshold, `find_match` returns the sentinel "Unknown" paired
with `max 0 M`: the best observed similarity when some similarity is
nonnegative, but 0 — not the true (negative) best — when every
similarity is negative, because the scan starts from a best score of 0. -/
theorem find_match_below_threshold_clamped
    (sim : Vec → Vec → ℚ) (query : Vec) (db : List (String × List Vec))
    (M : ℚ)
    (hub : ∀ s ∈ simsOf sim query db, s.2 ≤ M)
    (hmem : ∃ s ∈ simsOf sim query db, s.2 = M)
    (hT : M < SIMILARITY_THRESHOLD) :
    find_match sim query db = ("Unknown", max 0 M) := by
  have hsnd : (findBest sim query db).2 = max 0 M := by
    rw [findBest_eq_foldBest]
    simpa using foldBest_snd_max _ M hub hmem ("Unknown", 0)
  have hlt : (findBest sim query db).2 < SIMILARITY_THRESHOLD := by
    rw [hsnd]
    exact max_lt (by norm_num [SIMILARITY_THRESHOLD_eq]) hT
  unfold find_match
  rw [if_neg (not_le.mpr hlt), hsnd]

theorem find_match_below_threshold_clamped_witness :
    (∀ s ∈ simsOf (fun _ _ => (0 : ℚ)) [1] [("alice", [[1]])], s.2 ≤ 0) ∧
    (∃ s ∈ simsOf (fun _ _ => (0 : ℚ)) [1] [("alice", [[1]])], s.2 = 0) ∧
    (0 : ℚ) < SIMILARITY_THRESHOLD ∧
    find_match (fun _ _ => (0 : ℚ)) [1] [("alice", [[1]])]
      = ("Unknown", max 0 0) :=
  ⟨by decide, by decide, by norm_num [SIMILARITY_THRESHOLD_eq],
   find_match_below_threshold_clamped (fun _ _ => (0 : ℚ)) [1]
     [("alice", [[1]])] 0 (by decide) (by decide)
     (by norm_num [SIMILARITY_THRESHOLD_eq])⟩

/-- C5 counterexample: with a single reference whose similarity to the
query is -1, the best observed similarity is -1, yet `find_match` reports
the pair `("Unknown", 0)` — neither the lowercase sentinel "unknown" nor
the negative best score the claim promises. -/
theorem find_match_negative_score_counterexample :
    simsOf (fun _ _ => (-1 : ℚ)) [1] [("a", [[1]])] = [("a", -1)] ∧
    find_match (fun _ _ => (-1 : ℚ)) [1] [("a", [[1]])] = ("Unknown", 0) ∧
    (0 : ℚ) ≠ -1 ∧ "Unknown" ≠ "unknown" :=
  ⟨by decide, by decide, by norm_num, by decide⟩

/-! ## Attendance aggregation (`app.py` stop route and
`main.save_attendance`) -/

/-- `ATTENDANCE_THRESHOLD = 0.25` in `main.py`, as the reduced fraction
1/4 in a kernel-reducible form. -/
def ATTENDANCE_THRESHOLD : ℚ := ⟨1, 4, by decide, by decide⟩

theorem ATTENDANCE_THRESHOLD_eq : ATTENDANCE_THRESHOLD = 1 / 4 := by
  rw [ATTENDANCE_THRESHOLD, Rat.mk'_eq_divInt, Rat.divInt_eq_div]
  norm_num

/-- `app.py` stop route:
`(presence_time / session_duration) * 100 if session_duration > 0 else 0`. -/
def http_attendance_percentage (presence_time session_duration : Nat) : ℚ :=
  if 0 < session_duration then
    ((presence_time : ℚ) / (session_duration : ℚ)) * 100
  else 0

/-- `app.py`: `"present" if attendance_percentage >= 25 else "absent"`. -/
def http_attendance_status (percentage : ℚ) : String :=
  if 25 ≤ percentage then "present" else "absent"

/-- `main.save_attendance`: `percentage = presence_time / session_length`
with no zero guard — `none` models the ZeroDivisionError raised when
`session_length == 0`. -/
def save_attendance_percentage (presence_time session_length : ℚ) : Option ℚ :=
  if session_length = 0 then none else some (presence_time / session_length)

/-- `main.save_attendance`:
`"Present" if percentage >= ATTENDANCE_THRESHOLD else "Absent"`. -/
def save_attendance_status (percentage : ℚ) : String :=
  if ATTENDANCE_THRESHOLD ≤ percentage then "Present" else "Absent"

/-- C6: the HTTP stop path is total — zero duration yields percentage 0
and status "absent", and for positive duration the status is "present"
exactly when presence/duration reaches 0.25 — but the legacy
`save_attendance` path divides without a guard and raises (is undefined)
at duration 0, contradicting the claimed totality. -/
theorem attendance_percentage_totality :
    (∀ p : Nat, http_attendance_percentage p 0 = 0 ∧
      http_attendance_status (http_attendance_percentage p 0) = "absent") ∧
    (∀ p d : Nat, 0 < d →
      (http_attendance_status (http_attendance_percentage p d) = "present"
        ↔ ATTENDANCE_THRESHOLD ≤ (p : ℚ) / (d : ℚ))) ∧
    save_attendance_percentage 1 0 = none := by
  refine ⟨?_, ?_, ?_⟩
  · intro p
    constructor
    · norm_num [http_attendance_percentage]
    · norm_num [http_attendance_percentage, http_attendance_status]
  · intro p d hd
    have harith : ((25 : ℚ) ≤ (p : ℚ) / (d : ℚ) * 100)
        ↔ ((1 / 4 : ℚ) ≤ (p : ℚ) / (d : ℚ)) := by
      constructor <;> intro h <;> linarith
    rw [http_attendance_percentage, if_pos hd, http_attendance_status,
      ATTENDANCE_THRESHOLD_eq]
    by_cases h : (25 : ℚ) ≤ (p : ℚ) / (d : ℚ) * 100
    · rw [if_pos h]
      exact ⟨fun _ => harith.mp h, fun _ => rfl⟩
    · rw [if_neg h]
      exact ⟨fun habs => absurd habs (by decide),
             fun hc => absurd (harith.mpr hc) h⟩
  · rfl

theorem attendance_percentage_totality_witness :
    0 < 4 ∧
    (http_attendance_status (http_attendance_percentage 1 4) = "present"
      ↔ ATTENDANCE_THRESHOLD ≤ ((1 : Nat) : ℚ) / ((4 : Nat) : ℚ)) :=
  ⟨by norm_num, attendance_percentage_totality.2.1 1 4 (by norm_num)⟩

/-! ## Embedding store update (`EncodeGenerator.manage_embeddings`)

The store is an insertion-ordered dictionary identity → vector sequence;
`catalog` lists the entries of `os.listdir(db_path)` with their
`os.path.isdir` flag; the derivation of the reference vectors for one
identity (DeepFace on the original and augmented images) is the external
parameter `fresh`. -/

/-- `manage_embeddings`: add embeddings only for catalog folders not yet
in the store (existing identities are skipped), then delete every stored
identity absent from the catalog listing, preserving dictionary order. -/
def manage_embeddings {α : Type} (store : List (String × List α))
    (catalog : List (String × Bool)) (fresh : String → List α) :
    List (String × List α) :=
  let afterAdd := catalog.foldl
    (fun db entry =>
      if entry.2 = false then db
      else if (db.lookup entry.1).isSome then db
      else db ++ [(entry.1, fresh entry.1)])
    store
  afterAdd.filter (fun pe => (catalog.map Prod.fst).contains pe.1)

theorem lookup_append_isSome {α : Type} (l1 l2 : List (String × α))
    (p : String) (h : (l1.lookup p).isSome) :
    (l1 ++ l2).lookup p = l1.lookup p := by
  induction l1 with
  | nil => simp [List.lookup] at h
  | cons kv rest ih =>
    obtain ⟨k, v⟩ := kv
    by_cases hk : p = k
    · simp [List.lookup, hk]
    · have hb : (p == k) = false := by simp [hk]
      simp only [List.cons_append, List.lookup, hb] at h ⊢
      exact ih h

theorem lookup_append_none {α : Type} (l1 l2 : List (String × α))
    (p : String) (h : l1.lookup p = none) :
    (l1 ++ l2).lookup p = l2.lookup p := by
  induction l1 with
  | nil => simp
  | cons kv rest ih =>
    obtain ⟨k, v⟩ := kv
    by_cases hk : p = k
    · simp [List.lookup, hk] at h
    · have hb : (p == k) = false := by simp [hk]
      simp only [List.lookup, hb] at h
      simp only [List.cons_append, List.lookup, hb]
      exact ih h

theorem manage_fold_preserves {α : Type} (fresh : String → List α)
    (catalog : List (String × Bool)) (p : String) :
    ∀ store : List (String × List α), (store.lookup p).isSome →
      ((catalog.foldl
        (fun db entry =>
          if entry.2 = false then db
          else if (db.lookup entry.1).isSome then db
          else db ++ [(entry.1, fresh entry.1)])
        store).lookup p) = store.lookup p := by
  induction catalog with
  | nil => intro store _; rfl
  | cons entry rest ih =>
    intro store hsome
    rw [List.foldl_cons]
    by_cases hdir : entry.2 = false
    · rw [if_pos hdir]; exact ih store hsome
    · rw [if_neg hdir]
      by_cases hin : ((store.lookup entry.1).isSome : Prop)
      · rw [if_pos hin]; exact ih store hsome
      · rw [if_neg hin]
        have hne : p ≠ entry.1 := by
          intro hpe
          exact hin (hpe ▸ hsome)
        have hpres : ((store ++ [(entry.1, fresh entry.1)]).lookup p)
            = store.lookup p :=
          lookup_append_isSome store _ p hsome
        rw [ih (store ++ [(entry.1, fresh entry.1)]) (by rw [hpres]; exact hsome),
          hpres]

theorem manage_fold_lookup {α : Type} (fresh : String → List α)
    (catalog : List (String × Bool)) (p : String) (hp : (p, true) ∈ catalog) :
    ∀ store : List (String × List α),
      ((catalog.foldl
        (fun db entry =>
          if entry.2 = false then db
          else if (db.lookup entry.1).isSome then db
          else db ++ [(entry.1, fresh entry.1)])
        store).lookup p) = some ((store.lookup p).getD (fresh p)) := by
  induction catalog with
  | nil => simp at hp
  | cons entry rest ih =>
    intro store
    rw [List.foldl_cons]
    by_cases hhead : entry = (p, true)
    · subst hhead
      rw [if_neg (by simp)]
      cases hlook : store.lookup p with
      | some vs =>
        rw [if_pos (by simp [hlook])]
        rw [manage_fold_preserves fresh rest p store (by simp [hlook]), hlook]
        rfl
      | none =>
        rw [if_neg (by simp [hlook])]
        have hnew : ((store ++ [(p, fresh p)]).lookup p) = some (fresh p) := by
          rw [lookup_append_none store _ p hlook]
          simp [List.lookup]
        rw [manage_fold_preserves fresh rest p _ (by rw [hnew]; rfl), hnew]
        rfl
    · have hprest : (p, true) ∈ rest := by
        rcases List.mem_cons.mp hp with h | h
        · exact absurd h.symm hhead
        · exact h
      by_cases hdir : entry.2 = false
      · rw [if_pos hdir]; exact ih hprest store
      · rw [if_neg hdir]
        by_cases hin : ((store.lookup entry.1).isSome : Prop)
        · rw [if_pos hin]; exact ih hprest store
        · rw [if_neg hin]
          have hne : p ≠ entry.1 := by
            intro hpe
            apply hhead
            have : entry.2 = true := by
              cases h2 : entry.2
              · exact absurd h2 hdir
              · rfl
            cases entry
            simp at hpe this
            simp [hpe, this]
          have hsame : ((store ++ [(entry.1, fresh entry.1)]).lookup p)
              = store.lookup p := by
            cases hlook : store.lookup p with
            | some vs =>
              rw [lookup_append_isSome store _ p (by simp [hlook])]
              exact hlook
            | none =>
              rw [lookup_append_none store _ p hlook]
              have hb : (p == entry.1) = false := by simp [hne]
              simp [List.lookup, hb]
          rw [ih hprest (store ++ [(entry.1, fresh entry.1)]), hsame]

theorem lookup_filter_contains {α : Type} (names : List String)
    (l : List (String × α)) (p : String) (hp : names.contains p = true) :
    ((l.filter (fun pe => names.contains pe.1)).lookup p) = l.lookup p := by
  induction l with
  | nil => rfl
  | cons kv rest ih =>
    obtain ⟨k, v⟩ := kv
    by_cases hk : p = k
    · subst hk
      rw [List.filter_cons, if_pos (by simpa using hp)]
      simp [List.lookup]
    · have hb : (p == k) = false := by simp [hk]
      rw [List.filter_cons]
      by_cases hkeep : (names.contains k : Prop)
      · rw [if_pos (by simpa using hkeep)]
        simp only [List.lookup, hb]
        exact ih
      · rw [if_neg (by simpa using hkeep)]
        simp only [List.lookup, hb]
        exact ih

/-- C9 (amended): after `manage_embeddings`, an identity whose catalog
entry is a directory maps to its previously stored vector sequence when
it was already in the store (the code skips existing identities rather
than replacing them), and to the freshly derived sequence only when it
was new. -/
theorem manage_embeddings_keeps_existing {α : Type}
    (store : List (String × List α)) (catalog : List (String × Bool))
    (fresh : String → List α) (p : String) (hp : (p, true) ∈ catalog) :
    (manage_embeddings store catalog fresh).lookup p
      = some ((store.lookup p).getD (fresh p)) := by
  unfold manage_embeddings
  have hcont : ((catalog.map Prod.fst).contains p) = true := by
    simp only [List.contains_iff_exists_mem_beq]
    exact ⟨p, List.mem_map.mpr ⟨(p, true), hp, rfl⟩, by simp⟩
  rw [lookup_filter_contains _ _ _ hcont]
  exact manage_fold_lookup fresh catalog p hp store

theorem manage_embeddings_keeps_existing_witness :
    (("b", true) ∈ [("a", true), ("b", true)]) ∧
    (manage_embeddings [("a", [0])] [("a", true), ("b", true)]
        (fun _ => [5])).lookup "b"
      = some ((([("a", [0])] : List (String × List Nat)).lookup "b").getD
          ((fun _ => [5]) "b")) :=
  ⟨by decide,
   manage_embeddings_keeps_existing [("a", [0])] [("a", true), ("b", true)]
     (fun _ => [5]) "b" (by decide)⟩

/-- C9 counterexample: for an identity already in the store and still in
the catalog, `manage_embeddings` keeps the old vectors `[0]` instead of
the freshly derived `[1]`, so the claimed replace-on-existing is false. -/
theorem manage_embeddings_no_replace_counterexample :
    manage_embeddings [("a", [0])] [("a", true)] (fun _ => [1])
      = [("a", [0])] ∧
    (manage_embeddings [("a", [0])] [("a", true)] (fun _ => [1])).lookup "a"
      = some [0] ∧
    some ([0] : List Nat) ≠ some [1] :=
  ⟨rfl, rfl, by decide⟩

/-! ## Student management (`Student_Manage.py`)

Image payloads are abstract (`Option β`; `none` = a base64 payload whose
decode/save raises). The students directory is an association list
folder-name → saved image files. -/

/-- `student_name.strip().replace(" ", "_")`: strip surrounding
whitespace, then replace every space by an underscore (the pattern is a
single character, so the replacement is a character map). -/
def normalizeName (s : String) : String :=
  ⟨(((s.data.dropWhile Char.isWhitespace).reverse.dropWhile
      Char.isWhitespace).reverse).map
    (fun c => if c = ' ' then '_' else c)⟩

/-- Outcome of `Student_Manage.add_student_from_api`. -/
inductive AddOutcome where
  | already_exists (student : String)
  | save_failed (student : String)
  | success (student : String) (photos_saved : Nat)
deriving Repr, DecidableEq

/-- Outcome of `Student_Manage.remove_student`. -/
inductive RemoveOutcome where
  | removed (student : String)
  | not_found (student : String)
deriving Repr, DecidableEq

/-- The save loop of `add_student_from_api`: write images in order until
one raises; returns the files written and whether all succeeded. -/
def saveImages {β : Type} : List (Option β) → List β → List β × Bool
  | [], acc => (acc, true)
  | none :: _, acc => (acc, false)
  | some b :: rest, acc => saveImages rest (acc ++ [b])

/-- `Student_Manage.add_student_from_api(student_name, image_data_list)`:
normalize the name; if the folder exists, answer 400 without writing
anything; else create the folder and save the images, keeping the
partial writes if one raises. -/
def add_student_from_api {β : Type} (fs : List (String × List β))
    (student_name : String) (image_data_list : List (Option β)) :
    AddOutcome × List (String × List β) :=
  let name := normalizeName student_name
  if (fs.lookup name).isSome then (.already_exists name, fs)
  else
    let r := saveImages image_data_list []
    if r.2 then (.success name r.1.length, fs ++ [(name, r.1)])
    else (.save_failed name, fs ++ [(name, r.1)])

/-- `Student_Manage.remove_student(student_name)`: normalize the name the
same way, delete the folder if present, 404 otherwise. -/
def remove_student {β : Type} (fs : List (String × List β))
    (student_name : String) : RemoveOutcome × List (String × List β) :=
  let name := normalizeName student_name
  if (fs.lookup name).isSome then
    (.removed name, fs.filter (fun pe => pe.1 != name))
  else (.not_found name, fs)

/-- C10: when the normalized student name already has a folder, the add
call is rejected with no change to the filesystem state, and remove on
the same raw input addresses (and here removes) exactly that same
normalized record. -/
theorem add_student_existing_rejected {β : Type}
    (fs : List (String × List β)) (student_name : String)
    (imgs : List (Option β))
    (h : (fs.lookup (normalizeName student_name)).isSome) :
    add_student_from_api fs student_name imgs
      = (.already_exists (normalizeName student_name), fs) ∧
    (remove_student fs student_name).1
      = .removed (normalizeName student_name) ∧
    (remove_student fs student_name).2
      = fs.filter (fun pe => pe.1 != normalizeName student_name) := by
  refine ⟨?_, ?_, ?_⟩
  · simp [add_student_from_api, h]
  · simp [remove_student, h]
  · simp [remove_student, h]

theorem add_student_existing_rejected_witness :
    ((([("Ahmed_Ali", [0])] : List (String × List Nat)).lookup
        (normalizeName " Ahmed Ali ")).isSome) ∧
    (add_student_from_api [("Ahmed_Ali", [0])] " Ahmed Ali " [some 1]
        = (.already_exists (normalizeName " Ahmed Ali "), [("Ahmed_Ali", [0])]) ∧
      (remove_student [("Ahmed_Ali", [0])] " Ahmed Ali ").1
        = .removed (normalizeName " Ahmed Ali ") ∧
      (remove_student ([("Ahmed_Ali", [0])] : List (String × List Nat))
          " Ahmed Ali ").2
        = ([("Ahmed_Ali", [0])] : List (String × List Nat)).filter
            (fun pe => pe.1 != normalizeName " Ahmed Ali ")) :=
  ⟨by decide,
   add_student_existing_rejected [("Ahmed_Ali", [0])] " Ahmed Ali " [some 1]
     (by decide)⟩

end Attendance
